import Mathlib

/-!
Verification of the cross-silo RPC dispatch layer
(`src/sentry/services/hybrid_cloud/rpc.py`).

Byte strings (Python `bytes`, and `str` values that hold ASCII data such as
URL paths and signature tags) are modelled as `List Nat`, one entry per byte.
The HMAC-SHA256 hex digest computed by the Python standard library
(`hmac.new(key, msg, hashlib.sha256).hexdigest()`) is an external collaborator
of this subsystem; it is modelled as an abstract function
`hmacHex : key → message → digest bytes`.
-/

namespace SentryRpc

/-- Bytes of a Python `bytes` / ASCII `str` value. -/
abbrev Bytes := List Nat

/-- Byte value of the ASCII colon character used as the signing separator. -/
def colonByte : Nat := 58

/-- Bytes of the version token `"rpc0:"` that every signature tag begins with. -/
def rpc0Tag : Bytes := [114, 112, 99, 48, 58]

/-- Python `s.split(sep, maxsplit)` on byte strings: `fuel` is the number of
splits still allowed; `acc` holds the (reversed) current segment. -/
def pySplit (sep : Nat) : Nat → Bytes → Bytes → List Bytes
  | _, [], acc => [acc.reverse]
  | 0, rest, acc => [acc.reverse ++ rest]
  | fuel + 1, c :: rest, acc =>
    if c = sep then acc.reverse :: pySplit sep fuel rest []
    else pySplit sep (fuel + 1) rest (c :: acc)

/-- Errors raised by the request authenticator: `RpcAuthenticationSetupException`
when no shared secret is configured, and Python's `ValueError` raised by the
tuple unpacking `_, signature_data = signature.split(":", 2)`. -/
inductive AuthErr
  | authenticationSetup
  | valueError
deriving DecidableEq

/-- Embedding of `compare_signature(url, body, signature)`.  `secrets` is the
configured `settings.RPC_SHARED_SECRET` list (each secret given as its UTF-8
bytes) and `hmacHex` the HMAC-SHA256 hexdigest collaborator. -/
def compare_signature (secrets : List Bytes) (hmacHex : Bytes → Bytes → Bytes)
    (url body signature : Bytes) : Except AuthErr Bool :=
  match secrets with
  | [] => .error .authenticationSetup
  | _ :: _ =>
    if rpc0Tag.isPrefixOf signature then
      match pySplit colonByte 2 signature [] with
      | [_, signature_data] =>
        .ok (secrets.any fun key => hmacHex key (url ++ [colonByte] ++ body) == signature_data)
      | _ => .error .valueError
    else
      .ok false

/-- Embedding of `generate_request_signature(url_path, body)`: signs with the
secret at index 0 and renders the tag as `"rpc0:" + hexdigest`. -/
def generate_request_signature (secrets : List Bytes) (hmacHex : Bytes → Bytes → Bytes)
    (url_path body : Bytes) : Except AuthErr Bytes :=
  match secrets with
  | [] => .error .authenticationSetup
  | secret :: _ =>
    .ok (rpc0Tag ++ hmacHex secret (url_path ++ [colonByte] ++ body))

/-- Silo modes from `sentry.silo.SiloMode` (the three-valued enum used by
`rpc.py`): an all-in-one monolith, the control silo, and a region silo. -/
inductive SiloMode
  | MONOLITH
  | CONTROL
  | REGION
deriving DecidableEq

/-- Exceptions raised by the RPC layer, one constructor per exception class of
`rpc.py`: `RpcServiceSetupException`, `RpcServiceUnimplementedException`,
`RpcArgumentException`, `RpcResponseException`, and the pydantic
`ValidationError` that escapes uncaught from model construction. -/
inductive RpcErr
  | setupException
  | serviceUnimplemented
  | argumentException
  | responseException
  | validationError
deriving DecidableEq

/-- Type descriptors usable in RPC method annotations: primitive types and the
generic forms `Optional[...]` and `List[...]`, arbitrarily nested. -/
inductive Ty
  | primInt
  | primStr
  | primBool
  | optional (t : Ty)
  | listOf (t : Ty)

/-- Serialized values carried in argument dictionaries and response envelopes
(the JSON-like values pydantic validates). -/
inductive Val
  | int (n : Int)
  | str (s : String)
  | bool (b : Bool)
  | none
  | list (vs : List Val)

/-- Python's `value is None` test. -/
def Val.isNone : Val → Bool
  | .none => true
  | _ => false

/-- Validation of a value against a type descriptor, as performed by the
pydantic parameter/return models built from the method's annotations
(`Optional[t]` admits `None` or a value of `t`; `List[t]` admits a list whose
members all validate against `t`). -/
def typeCheck : Ty → Val → Bool
  | .primInt, .int _ => true
  | .primStr, .str _ => true
  | .primBool, .bool _ => true
  | .optional _, .none => true
  | .optional t, v => typeCheck t v
  | .listOf t, .list vs => vs.all fun v => typeCheck t v
  | _, _ => false

/-- Named-argument dictionary (`ArgumentDict` in the source). -/
abbrev ArgDict := List (String × Val)

/-- Dictionary lookup by parameter name. -/
def lookupArg (args : ArgDict) (name : String) : Option Val :=
  (args.find? fun kv => kv.1 == name).map fun kv => kv.2

/-- One field of the dynamically created pydantic parameter model: the
parameter's name, its type annotation, and its default value (`Option.none`
when the parameter is required, i.e. its declared default was
`inspect.Parameter.empty`). -/
structure Param where
  name : String
  ty : Ty
  default : Option Val

/-- Validation of one declared field during pydantic model construction: take
the caller's value when supplied and type-correct, fall back to the declared
default, and fail with `ValidationError` on a type mismatch or a missing
required field. -/
def validateField (p : Param) (args : ArgDict) : Except RpcErr Val :=
  match lookupArg args p.name with
  | some v => if typeCheck p.ty v then .ok v else .error .validationError
  | Option.none =>
    match p.default with
    | some d => .ok d
    | Option.none => .error .validationError

/-- Construction of a pydantic parameter-model instance from a raw argument
dictionary (`self._parameter_model(**raw_arguments)` and, identically,
`self._parameter_model.parse_obj(...)`): every declared field is validated in
declaration order and extra keys are ignored. -/
def constructModel : List Param → ArgDict → Except RpcErr ArgDict
  | [], _ => .ok []
  | p :: ps, args => do
    let v ← validateField p args
    let rest ← constructModel ps args
    return (p.name, v) :: rest

/-- Embedding of `RpcMethodSignature.serialize_arguments`: builds the parameter
model from the raw arguments and returns its field dictionary
(`model_instance.dict()`); a pydantic `ValidationError` escapes uncaught. -/
def serialize_arguments (parameter_model : List Param) (raw_arguments : ArgDict) :
    Except RpcErr ArgDict :=
  constructModel parameter_model raw_arguments

/-- Embedding of `RpcMethodSignature.deserialize_arguments`: parses the serial
arguments with the parameter model, wrapping any failure in
`RpcArgumentException`. -/
def deserialize_arguments (parameter_model : List Param) (serial_arguments : ArgDict) :
    Except RpcErr ArgDict :=
  match constructModel parameter_model serial_arguments with
  | .ok model => .ok model
  | .error _ => .error .argumentException

/-- Modelled from the spec: §3 "Region" — a topology shard with a unique name
and a network address; the class itself lives in `sentry.types.region`,
outside the shown sources. -/
structure Region where
  name : String
  address : Option String

/-- Outcomes of a region resolver: success, `RegionMappingNotFound`, or any
other exception. -/
inductive ResolverErr
  | regionMappingNotFound
  | otherError

/-- Modelled from the spec: §4.2 "Region Resolution Strategy" — the
`resolve(arguments) -> Region` capability (class `RegionResolutionStrategy`
of `sentry.services.hybrid_cloud.region`, outside the shown sources), which
either returns a region or raises. -/
def RegionResolutionStrategy : Type :=
  ArgDict → Except ResolverErr Region

/-- Parameter type annotations as found by `inspect.signature`: an actual type
token, a string (forward reference), or a missing annotation
(`inspect.Parameter.empty`). -/
inductive ParamToken
  | token (t : Ty)
  | strToken (s : String)
  | empty

/-- Return type annotations: an actual type token, a string (forward
reference), or the literal `None` declaring a void method. -/
inductive ReturnToken
  | token (t : Ty)
  | strToken (s : String)
  | noneToken

/-- A declared RPC method parameter before signature construction. -/
structure RawParam where
  name : String
  annotationToken : ParamToken
  default : Option Val

/-- A declared RPC method before signature construction: its parameters (after
`self` is dropped), return annotation, the `@regional_rpc_method` resolver
attribute if present, and the `return_none_if_mapping_not_found` flag. -/
structure RawMethod where
  name : String
  params : List RawParam
  ret : ReturnToken
  regionResolution : Option RegionResolutionStrategy
  optionalReturn : Bool

/-- The constructed method signature (`RpcMethodSignature`): the pydantic
parameter model, the return model (`Option.none` for a void method), the
extracted region resolution strategy, and the optional-return flag read from
the method's attributes. -/
structure RpcMethodSignature where
  parameter_model : List Param
  return_model : Option Ty
  region_resolution : Option RegionResolutionStrategy
  optional_return : Bool

/-- Embedding of `create_field` inside `_create_parameter_model`: a missing
annotation and a string annotation (rejected by `_validate_type_token`) both
raise `RpcServiceSetupException`. -/
def create_field (p : RawParam) : Except RpcErr Param :=
  match p.annotationToken with
  | .empty => .error .setupException
  | .strToken _ => .error .setupException
  | .token t => .ok ⟨p.name, t, p.default⟩

/-- Embedding of `RpcMethodSignature._create_parameter_model`: builds one field
per declared parameter, failing on the first bad annotation. -/
def create_parameter_model : List RawParam → Except RpcErr (List Param)
  | [] => .ok []
  | p :: ps => do
    let f ← create_field p
    let rest ← create_parameter_model ps
    return f :: rest

/-- Embedding of `RpcMethodSignature._create_return_model`: a `None` annotation
yields no return model (void); a string annotation fails `_validate_type_token`
with a `ValueError` that `_create_signatures` converts to
`RpcServiceSetupException`. -/
def create_return_model : ReturnToken → Except RpcErr (Option Ty)
  | .noneToken => .ok Option.none
  | .strToken _ => .error .setupException
  | .token t => .ok (some t)

/-- Embedding of `RpcMethodSignature._extract_region_resolution`: a resolver on
a non-region service, or a region service method without one, is a setup
error. -/
def extract_region_resolution (local_mode : SiloMode) (m : RawMethod) :
    Except RpcErr (Option RegionResolutionStrategy) :=
  if local_mode = SiloMode.REGION then
    match m.regionResolution with
    | some r => .ok (some r)
    | Option.none => .error .setupException
  else
    match m.regionResolution with
    | some _ => .error .setupException
    | Option.none => .ok Option.none

/-- Embedding of `RpcMethodSignature.__init__`: builds the parameter model, the
return model, and the region resolution, failing at construction time on any
bad declaration. -/
def RpcMethodSignature.build (local_mode : SiloMode) (m : RawMethod) :
    Except RpcErr RpcMethodSignature := do
  let pm ← create_parameter_model m.params
  let rm ← create_return_model m.ret
  let rr ← extract_region_resolution local_mode m
  return ⟨pm, rm, rr, m.optionalReturn⟩

/-- Embedding of `RpcService._create_signatures`, run by `__init_subclass__` at
class-definition time: builds every RPC method's signature, converting any
failure into `RpcServiceSetupException` before the class (and hence any call)
can exist. -/
def create_signatures (local_mode : SiloMode) :
    List RawMethod → Except RpcErr (List (String × RpcMethodSignature))
  | [] => .ok []
  | m :: ms =>
    match RpcMethodSignature.build local_mode m with
    | .error _ => .error .setupException
    | .ok s =>
      match create_signatures local_mode ms with
      | .error e => .error e
      | .ok rest => .ok ((m.name, s) :: rest)

/-- Embedding of `_RegionResolutionResult`: either a resolved region or an
early halt. -/
structure RegionResolutionResult where
  region : Option Region
  is_early_halt : Bool

/-- Embedding of `RpcMethodSignature.resolve_to_region`: a missing resolver is
a setup error; `RegionMappingNotFound` becomes an early halt exactly when the
method was declared with `return_none_if_mapping_not_found`, and any other
resolver failure — including an escalated `RegionMappingNotFound` — is wrapped
in `RpcServiceUnimplementedException`. -/
def resolve_to_region (sig : RpcMethodSignature) (arguments : ArgDict) :
    Except RpcErr RegionResolutionResult :=
  match sig.region_resolution with
  | Option.none => .error .setupException
  | some resolve =>
    match resolve arguments with
    | .ok region => .ok ⟨some region, false⟩
    | .error .regionMappingNotFound =>
      if sig.optional_return then .ok ⟨Option.none, true⟩
      else .error .serviceUnimplemented
    | .error .otherError => .error .serviceUnimplemented

/-- Outcome of `remote_method` short of transport: either the early-halt `None`
return, or a call to `dispatch_remote_call` with the resolved region and the
serialized arguments.  `dispatched` is the only outcome that performs a
transport call. -/
inductive RemoteOutcome
  | earlyHaltNone
  | dispatched (region : Option Region) (serial_arguments : ArgDict)

/-- Embedding of `remote_method` inside
`RpcService._create_remote_implementation.create_remote_method`: resolve the
region first when the service's home is the region silo (halting early with
`None` if resolution says so), then serialize the arguments and hand off to
`dispatch_remote_call`. -/
def remote_method (local_mode : SiloMode) (sig : RpcMethodSignature)
    (kwargs : ArgDict) : Except RpcErr RemoteOutcome :=
  if local_mode = SiloMode.REGION then
    match resolve_to_region sig kwargs with
    | .error e => .error e
    | .ok result =>
      if result.is_early_halt then .ok .earlyHaltNone
      else
        match serialize_arguments sig.parameter_model kwargs with
        | .error e => .error e
        | .ok serial => .ok (.dispatched result.region serial)
  else
    match serialize_arguments sig.parameter_model kwargs with
    | .error e => .error e
    | .ok serial => .ok (.dispatched Option.none serial)

/-- Embedding of `RpcMethodSignature.deserialize_return_value`: a void method
(`return_model` absent) accepts only `None` and raises `RpcResponseException`
otherwise; a non-void method validates the value against the single-field
return model. -/
def deserialize_return_value (return_model : Option Ty) (value : Val) :
    Except RpcErr Val :=
  match return_model with
  | Option.none =>
    if value.isNone then .ok Val.none else .error .responseException
  | some t =>
    if typeCheck t value then .ok value else .error .validationError

/-- Embedding of the deserializing step of `_RemoteSiloCall.dispatch`: a null
`value` field in the HTTP 200 envelope is returned as `None` directly, and
only a non-null value is passed to `deserialize_rpc_response` (hence to
`deserialize_return_value`). -/
def dispatch_deserialize (return_model : Option Ty) (return_value : Val) :
    Except RpcErr Val :=
  if return_value.isNone then .ok Val.none
  else deserialize_return_value return_model return_value

/-- The two delegate implementations `RpcService.create_delegation` can bind
for a silo mode. -/
inductive DelegateKind
  | localImplementation
  | remoteImplementation

/-- Embedding of the `constructors` mapping built by
`RpcService.create_delegation`: the local implementation is bound exactly for
the monolithic mode and the service's own `local_mode`, and the remote
implementation otherwise.  The choice is a pure function of the fixed mode. -/
def delegation_constructor (local_mode mode : SiloMode) : DelegateKind :=
  if mode = SiloMode.MONOLITH ∨ mode = local_mode then .localImplementation
  else .remoteImplementation

/-- An RPC-relevant method of a base service class: its name, whether it
carries the `@rpc_method` decoration, and whether it is abstract on the base
class. -/
structure ServiceMethod where
  name : String
  is_rpc_method : Bool
  is_abstract : Bool

/-- How a method of the delegate class built by
`RpcService._create_remote_implementation` is implemented: by the generated
remote-dispatch override, by the base service class, or by the supplied
`nonlocal_class` partial override. -/
inductive ImplKind
  | remoteDispatch
  | localFromBase
  | localFromNonlocal

/-- Names collected into `rpc_overrides`: the abstract RPC methods of the base
class for which `should_generate_remote_method` holds (all of them when no
`nonlocal_class` is supplied, otherwise those the override leaves abstract;
`nl` gives the override's abstractness per method name). -/
def rpc_override_names (methods : List ServiceMethod)
    (nl : Option (String → Bool)) : List String :=
  (methods.filter fun m =>
    m.is_rpc_method && m.is_abstract &&
      (match nl with
       | Option.none => true
       | some isAbstractInNonlocal => isAbstractInNonlocal m.name)).map
    fun m => m.name

/-- Method resolution on the delegate class
`type(f"{cls.__name__}__RemoteDelegate", (base_class,), rpc_overrides)`: a name
in `rpc_overrides` binds to the generated remote method, anything else binds
to `base_class`, which is the base service class when no `nonlocal_class` was
supplied and the `nonlocal_class` otherwise (also covering the shortcut that
returns `nonlocal_class()` directly when `rpc_overrides` is empty). -/
def resolve_method_impl (methods : List ServiceMethod)
    (nl : Option (String → Bool)) (n : String) : ImplKind :=
  if n ∈ rpc_override_names methods nl then .remoteDispatch
  else
    match nl with
    | Option.none => .localFromBase
    | some _ => .localFromNonlocal

lemma pySplit_no_sep {sep : Nat} {s : Bytes} (h : sep ∉ s) :
    ∀ fuel acc, pySplit sep fuel s acc = [acc.reverse ++ s] := by
  induction s with
  | nil =>
    intro fuel acc
    cases fuel <;> simp [pySplit]
  | cons c rest ih =>
    intro fuel acc
    have hc : c ≠ sep := fun hcs => h (hcs ▸ List.mem_cons_self c rest)
    have hrest : sep ∉ rest := fun hm => h (List.mem_cons_of_mem c hm)
    cases fuel with
    | zero => simp [pySplit]
    | succ n =>
      rw [pySplit, if_neg hc, ih hrest]
      simp

lemma pySplit_rpc0 (t : Bytes) (h : colonByte ∉ t) :
    pySplit colonByte 2 (rpc0Tag ++ t) [] = [[114, 112, 99, 48], t] := by
  rw [rpc0Tag]
  simp only [List.cons_append, List.nil_append, pySplit, colonByte]
  norm_num
  simpa [colonByte] using pySplit_no_sep h 1 []

lemma rpc0_isPrefixOf (t : Bytes) : rpc0Tag.isPrefixOf (rpc0Tag ++ t) = true := by
  simp [rpc0Tag, List.isPrefixOf]

/-- C2. Signature rotation round-trip: for every non-empty configured list of
shared secrets, every path and every body, the tag
`"rpc0:" ++ hexdigest (HMAC-SHA256 s (path ++ ":" ++ body))` computed with any
secret `s` of the list is accepted by `compare_signature`; in particular
`compare_signature` accepts the output of `generate_request_signature` (which
signs with `s` at index 0), and a tag produced while `s` sat at index 0 still
verifies after `s` moves to a later index, since only membership in the list
matters.  The hypothesis that the digest bytes contain no colon is a property
of hexadecimal digests, whose alphabet is `0-9a-f`. -/
theorem compare_signature_accepts_any_secret (secrets : List Bytes)
    (hmacHex : Bytes → Bytes → Bytes) (url body s : Bytes)
    (hs : s ∈ secrets)
    (hhex : colonByte ∉ hmacHex s (url ++ [colonByte] ++ body)) :
    compare_signature secrets hmacHex url body
      (rpc0Tag ++ hmacHex s (url ++ [colonByte] ++ body)) = .ok true := by
  match secrets, hs with
  | a :: as, hs =>
    simp only [compare_signature]
    rw [if_pos (rpc0_isPrefixOf _), pySplit_rpc0 _ hhex]
    exact congrArg Except.ok (List.any_eq_true.mpr ⟨s, hs, by simp⟩)

/-- Witness for C2: with secrets `["n", "o"]` and a concrete digest function,
a tag computed from the secret at index 1 is accepted. -/
theorem compare_signature_accepts_any_secret_witness :
    compare_signature [[110], [111]] (fun k _ => k) [117] [98]
      (rpc0Tag ++ [111]) = .ok true :=
  compare_signature_accepts_any_secret [[110], [111]] (fun k _ => k) [117] [98] [111]
    (by decide) (by decide)

/-- C5. Signing formula: for every non-empty configured secret list (written
`secret :: rest`), every path and every body, `generate_request_signature`
returns exactly `"rpc0:" ++ hexdigest (HMAC-SHA256 secret (path ++ ":" ++ body))`
where `secret` is the entry at index 0. -/
theorem generate_request_signature_formula (hmacHex : Bytes → Bytes → Bytes)
    (secret : Bytes) (rest : List Bytes) (url_path body : Bytes) :
    generate_request_signature (secret :: rest) hmacHex url_path body =
      .ok (rpc0Tag ++ hmacHex secret (url_path ++ [colonByte] ++ body)) :=
  rfl

/-- C9 counterexample: `compare_signature` is not total on arbitrary signature
strings.  The tag `"rpc0:a:b"` starts with the version token, but splitting it
on `":"` with maxsplit 2 yields three parts, and the tuple unpacking
`_, signature_data = signature.split(":", 2)` raises `ValueError` instead of
returning `False`. -/
theorem compare_signature_extra_colon_raises :
    compare_signature [[107]] (fun _ _ => [97]) [117] [98]
      [114, 112, 99, 48, 58, 97, 58, 98] = .error .valueError := by
  rfl

/-- C9 amended: with at least one shared secret configured, `compare_signature`
returns a boolean without raising for every url, body, and every signature that
is either not prefixed with `"rpc0:"` or whose remainder after that token
contains no further colon (every well-formed tag, hexadecimal digests
containing no colon, and every non-prefixed string, are covered); a signature
with a second colon after the token raises `ValueError` instead. -/
theorem compare_signature_total_without_extra_colon (secrets : List Bytes)
    (hmacHex : Bytes → Bytes → Bytes) (url body signature : Bytes)
    (hne : secrets ≠ [])
    (hsig : rpc0Tag.isPrefixOf signature = false ∨ colonByte ∉ signature.drop 5) :
    ∃ b, compare_signature secrets hmacHex url body signature = .ok b := by
  match secrets with
  | [] => exact absurd rfl hne
  | a :: as =>
    by_cases hp : rpc0Tag.isPrefixOf signature = true
    · have hpre : rpc0Tag <+: signature := List.isPrefixOf_iff_prefix.mp hp
      obtain ⟨t, rfl⟩ := hpre
      have ht : colonByte ∉ t := by
        rcases hsig with h | h
        · rw [hp] at h; cases h
        · rwa [List.drop_left' (by rfl)] at h
      exact ⟨_, by simp only [compare_signature]; rw [if_pos hp, pySplit_rpc0 _ ht]⟩
    · exact ⟨false, by simp only [compare_signature]; rw [if_neg hp]⟩

/-- Witness for C9's amended theorem: a malformed tag with no version token is
rejected with `False` rather than an exception. -/
theorem compare_signature_total_witness :
    ∃ b, compare_signature [[107]] (fun _ _ => [97]) [117] [98] [120] = .ok b :=
  compare_signature_total_without_extra_colon [[107]] (fun _ _ => [97]) [117] [98] [120]
    (by decide) (Or.inl (by decide))

/-- C1. Early-halt law: for a region-affine method (the service's `local_mode`
is `REGION`, so `remote_method` consults the resolver), if the resolver raises
`RegionMappingNotFound` then a method declared with
`return_none_if_mapping_not_found` returns `None` with no transport call, and
a method not so declared fails with the escalated error
(`RpcServiceUnimplementedException` wrapping the resolution failure, the
"service unavailable" outcome) with no transport call — in neither case is the
`dispatched` outcome, the only one that performs a transport call, reached. -/
theorem early_halt_law (sig : RpcMethodSignature) (resolve : RegionResolutionStrategy)
    (args : ArgDict)
    (hres : sig.region_resolution = some resolve)
    (hnf : resolve args = .error .regionMappingNotFound) :
    (sig.optional_return = true →
      remote_method SiloMode.REGION sig args = .ok .earlyHaltNone) ∧
    (sig.optional_return = false →
      remote_method SiloMode.REGION sig args = .error .serviceUnimplemented) := by
  constructor <;> intro hopt <;>
    simp [remote_method, resolve_to_region, hres, hnf, hopt]

/-- Witness for C1: a concrete signature whose resolver always reports
`RegionMappingNotFound`, in both declaration variants. -/
theorem early_halt_law_witness :
    remote_method SiloMode.REGION
      ⟨[], Option.none, some fun _ => .error .regionMappingNotFound, true⟩ []
      = .ok .earlyHaltNone ∧
    remote_method SiloMode.REGION
      ⟨[], Option.none, some fun _ => .error .regionMappingNotFound, false⟩ []
      = .error .serviceUnimplemented :=
  ⟨(early_halt_law _ _ _ rfl rfl).1 rfl, (early_halt_law _ _ _ rfl rfl).2 rfl⟩

lemma except_ok_bind {ε α β : Type} (a : α) (f : α → Except ε β) :
    (Except.ok a >>= f) = f a := rfl

lemma except_error_bind {ε α β : Type} (e : ε) (f : α → Except ε β) :
    ((Except.error e : Except ε α) >>= f) = Except.error e := rfl

lemma except_map_ok {ε α β : Type} (f : α → β) (a : α) :
    (f <$> (Except.ok a : Except ε α)) = Except.ok (f a) := rfl

lemma except_map_error {ε α β : Type} (f : α → β) (e : ε) :
    (f <$> (Except.error e : Except ε α)) = Except.error e := rfl

lemma except_pure {ε α : Type} (a : α) : (pure a : Except ε α) = Except.ok a := rfl

lemma validateField_skip (p : Param) (n : String) (v : Val) (rest : ArgDict)
    (hp : p.name ≠ n) :
    validateField p ((n, v) :: rest) = validateField p rest := by
  have hb : (n == p.name) = false := beq_eq_false_iff_ne.mpr fun he => hp he.symm
  simp [validateField, lookupArg, List.find?, hb]

lemma constructModel_skip (ps : List Param) (n : String) (v : Val) (rest : ArgDict)
    (h : ∀ p ∈ ps, p.name ≠ n) :
    constructModel ps ((n, v) :: rest) = constructModel ps rest := by
  induction ps with
  | nil => rfl
  | cons p ps ih =>
    simp only [constructModel]
    rw [validateField_skip p n v rest (h p (List.mem_cons_self p ps)),
      ih fun q hq => h q (List.mem_cons_of_mem _ hq)]

lemma constructModel_aligned (schema : List Param) (args : ArgDict)
    (hal : List.Forall₂ (fun (p : Param) (kv : String × Val) =>
      p.name = kv.1 ∧ typeCheck p.ty kv.2 = true) schema args)
    (hnodup : (schema.map Param.name).Nodup) :
    constructModel schema args = .ok args := by
  induction hal with
  | nil => rfl
  | @cons p kv ps rest hpk htail ih =>
    obtain ⟨n, v⟩ := kv
    obtain ⟨hn, hty⟩ := hpk
    rw [List.map_cons, List.nodup_cons] at hnodup
    have hhead : validateField p ((n, v) :: rest) = .ok v := by
      have hb : (n == p.name) = true := beq_iff_eq.mpr hn.symm
      simp [validateField, lookupArg, List.find?, hb, hty]
    have hskip : constructModel ps ((n, v) :: rest) = constructModel ps rest := by
      refine constructModel_skip ps n v rest fun q hq hqn => hnodup.1 ?_
      have hpq : p.name = q.name := by rw [hn, hqn]
      rw [hpq]
      exact List.mem_map_of_mem Param.name hq
    simp only [constructModel, hhead, hskip, ih hnodup.2, except_ok_bind,
      except_map_ok, except_map_error, except_error_bind, except_pure]
    simp [hn]

/-- C3. Argument round-trip: for any parameter model and any named-argument
dictionary satisfying its schema (one type-correct binding per declared
parameter, duplicate-free names), `serialize_arguments` returns the arguments
unchanged and `deserialize_arguments` parses that serialized form back to the
same dictionary — so `deserialize_arguments (serialize_arguments args) = args`,
type-for-type, including nested `Optional[...]`/`List[...]` parameter types,
which `Ty` closes over. -/
theorem serialize_deserialize_roundtrip (schema : List Param) (args : ArgDict)
    (hal : List.Forall₂ (fun (p : Param) (kv : String × Val) =>
      p.name = kv.1 ∧ typeCheck p.ty kv.2 = true) schema args)
    (hnodup : (schema.map Param.name).Nodup) :
    serialize_arguments schema args = .ok args ∧
    deserialize_arguments schema args = .ok args := by
  have h := constructModel_aligned schema args hal hnodup
  exact ⟨h, by simp [deserialize_arguments, h]⟩

/-- Witness for C3: a two-parameter schema with a nested
`Optional[List[int]]` type and a defaulted `str` parameter. -/
theorem serialize_deserialize_roundtrip_witness :
    serialize_arguments
      [⟨"x", .optional (.listOf .primInt), Option.none⟩, ⟨"y", .primStr, some (.str "d")⟩]
      [("x", .list [.int 1, .int 2]), ("y", .str "a")]
      = .ok [("x", .list [.int 1, .int 2]), ("y", .str "a")] ∧
    deserialize_arguments
      [⟨"x", .optional (.listOf .primInt), Option.none⟩, ⟨"y", .primStr, some (.str "d")⟩]
      [("x", .list [.int 1, .int 2]), ("y", .str "a")]
      = .ok [("x", .list [.int 1, .int 2]), ("y", .str "a")] :=
  serialize_deserialize_roundtrip _ _
    (List.Forall₂.cons ⟨rfl, rfl⟩ (List.Forall₂.cons ⟨rfl, rfl⟩ List.Forall₂.nil))
    (by decide)

/-- C4. Topology binding rule and determinism: `create_delegation` binds the
local implementation exactly when the mode is the monolithic mode or the
contract's declared `local_mode`, and the remote-dispatch implementation in
every other case; `delegation_constructor` is a pure function of the fixed
mode, so repeated binding of the same contract in the same mode always yields
the same delegate kind. -/
theorem topology_binding (local_mode mode : SiloMode) :
    (delegation_constructor local_mode mode = .localImplementation ↔
      (mode = SiloMode.MONOLITH ∨ mode = local_mode)) ∧
    (delegation_constructor local_mode mode = .remoteImplementation ↔
      ¬(mode = SiloMode.MONOLITH ∨ mode = local_mode)) := by
  by_cases h : mode = SiloMode.MONOLITH ∨ mode = local_mode <;>
    simp [delegation_constructor, h]

lemma create_field_ok_or_setup (p : RawParam) :
    (∃ f, create_field p = .ok f) ∨ create_field p = .error .setupException := by
  cases h : p.annotationToken <;> simp [create_field, h]

lemma create_parameter_model_ok_or_setup (params : List RawParam) :
    (∃ fs, create_parameter_model params = .ok fs) ∨
      create_parameter_model params = .error .setupException := by
  induction params with
  | nil => exact .inl ⟨[], rfl⟩
  | cons p ps ih =>
    rcases create_field_ok_or_setup p with ⟨f, hf⟩ | hf
    · rcases ih with ⟨fs, hfs⟩ | hfs
      · exact .inl ⟨f :: fs,
          by simp [create_parameter_model, hf, hfs, except_ok_bind, except_map_ok]⟩
      · exact .inr
          (by simp [create_parameter_model, hf, hfs, except_ok_bind, except_map_error])
    · exact .inr (by simp [create_parameter_model, hf, except_error_bind])

lemma create_parameter_model_str (params : List RawParam) (p : RawParam)
    (hp : p ∈ params) (s : String) (hs : p.annotationToken = .strToken s) :
    create_parameter_model params = .error .setupException := by
  induction params with
  | nil => cases hp
  | cons q qs ih =>
    rcases List.mem_cons.mp hp with rfl | hmem
    · simp [create_parameter_model, create_field, hs, except_error_bind]
    · rcases create_field_ok_or_setup q with ⟨f, hf⟩ | hf
      · simp [create_parameter_model, hf, ih hmem, except_ok_bind, except_map_error]
      · simp [create_parameter_model, hf, except_error_bind]

lemma create_return_model_ok_or_setup (r : ReturnToken) :
    (∃ t, create_return_model r = .ok t) ∨
      create_return_model r = .error .setupException := by
  cases r <;> simp [create_return_model]

lemma extract_ok_or_setup (local_mode : SiloMode) (m : RawMethod) :
    (∃ r, extract_region_resolution local_mode m = .ok r) ∨
      extract_region_resolution local_mode m = .error .setupException := by
  unfold extract_region_resolution
  by_cases hm : local_mode = SiloMode.REGION <;> cases hrr : m.regionResolution <;>
    simp [hm, hrr]

lemma build_ok_or_setup (local_mode : SiloMode) (m : RawMethod) :
    (∃ s, RpcMethodSignature.build local_mode m = .ok s) ∨
      RpcMethodSignature.build local_mode m = .error .setupException := by
  rcases create_parameter_model_ok_or_setup m.params with ⟨fs, hfs⟩ | hfs
  · rcases create_return_model_ok_or_setup m.ret with ⟨t, ht⟩ | ht
    · rcases extract_ok_or_setup local_mode m with ⟨r, hrr⟩ | hrr
      · exact .inl ⟨⟨fs, t, r, m.optionalReturn⟩, by simp [RpcMethodSignature.build, hfs, ht, hrr,
          except_ok_bind, except_map_ok]⟩
      · exact .inr (by simp [RpcMethodSignature.build, hfs, ht, hrr,
          except_ok_bind, except_map_error])
    · exact .inr (by simp [RpcMethodSignature.build, hfs, ht,
        except_ok_bind, except_error_bind])
  · exact .inr (by simp [RpcMethodSignature.build, hfs, except_error_bind])

lemma build_str (local_mode : SiloMode) (m : RawMethod)
    (hstr : (∃ p ∈ m.params, ∃ s, p.annotationToken = ParamToken.strToken s) ∨
            (∃ s, m.ret = ReturnToken.strToken s)) :
    RpcMethodSignature.build local_mode m = .error .setupException := by
  rcases hstr with ⟨p, hp, s, hs⟩ | ⟨s, hs⟩
  · simp [RpcMethodSignature.build, create_parameter_model_str m.params p hp s hs,
      except_error_bind]
  · rcases create_parameter_model_ok_or_setup m.params with ⟨fs, hfs⟩ | hfs <;>
      simp [RpcMethodSignature.build, hfs, create_return_model, hs,
        except_ok_bind, except_error_bind]

/-- C6. Contract rejection of unresolved type references: building the
signatures of a service class (done by `__init_subclass__` at class-definition
time) fails with `RpcServiceSetupException` whenever any declared method has a
string (forward-declared) parameter or return annotation; since the class
never finishes being defined, the failure cannot be deferred to a first
call. -/
theorem string_annotation_rejected (local_mode : SiloMode) (methods : List RawMethod)
    (m : RawMethod) (hm : m ∈ methods)
    (hstr : (∃ p ∈ m.params, ∃ s, p.annotationToken = ParamToken.strToken s) ∨
            (∃ s, m.ret = ReturnToken.strToken s)) :
    create_signatures local_mode methods = .error .setupException := by
  induction methods with
  | nil => cases hm
  | cons q qs ih =>
    rcases List.mem_cons.mp hm with rfl | hmem
    · simp [create_signatures, build_str local_mode m hstr]
    · rcases build_ok_or_setup local_mode q with ⟨sig, hsig⟩ | hsig
      · simp [create_signatures, hsig, ih hmem]
      · simp [create_signatures, hsig]

/-- Witness for C6: a one-method service whose parameter carries the string
annotation `"RpcThing"` is rejected at construction time. -/
theorem string_annotation_rejected_witness :
    create_signatures SiloMode.CONTROL
      [⟨"f", [⟨"x", .strToken "RpcThing", Option.none⟩], .noneToken, Option.none, false⟩]
      = .error .setupException :=
  string_annotation_rejected SiloMode.CONTROL _ _ (List.mem_singleton.mpr rfl)
    (Or.inl ⟨⟨"x", .strToken "RpcThing", Option.none⟩, List.mem_singleton.mpr rfl,
      "RpcThing", rfl⟩)

lemma mem_rpc_override_names (methods : List ServiceMethod) (f : String → Bool)
    (n : String) :
    n ∈ rpc_override_names methods (some f) ↔
      ∃ m ∈ methods, m.name = n ∧ m.is_rpc_method = true ∧ m.is_abstract = true ∧
        f m.name = true := by
  unfold rpc_override_names
  rw [List.mem_map]
  constructor
  · rintro ⟨m, hmf, rfl⟩
    rw [List.mem_filter] at hmf
    obtain ⟨hmem, hcond⟩ := hmf
    simp only [Bool.and_eq_true] at hcond
    exact ⟨m, hmem, rfl, hcond.1.1, hcond.1.2, hcond.2⟩
  · rintro ⟨m, hmem, rfl, h1, h2, h3⟩
    exact ⟨m, List.mem_filter.mpr ⟨hmem, by simp [h1, h2, h3]⟩, rfl⟩

/-- C7. Partial override dispatch: with a `nonlocal_class` supplied (outside
the home silo, where `_create_remote_implementation` runs), every abstract
RPC method of the base class that the override leaves abstract resolves to the
generated remote-dispatch implementation, and every one the override
implements concretely resolves to the override's own local implementation and
never to remote dispatch. -/
theorem partial_override_dispatch (methods : List ServiceMethod) (f : String → Bool)
    (m : ServiceMethod)
    (hnodup : (methods.map ServiceMethod.name).Nodup)
    (hm : m ∈ methods) (hrpc : m.is_rpc_method = true) (habs : m.is_abstract = true) :
    (f m.name = true →
      resolve_method_impl methods (some f) m.name = .remoteDispatch) ∧
    (f m.name = false →
      resolve_method_impl methods (some f) m.name = .localFromNonlocal) := by
  constructor
  · intro hf
    have hmem : m.name ∈ rpc_override_names methods (some f) :=
      (mem_rpc_override_names methods f m.name).mpr ⟨m, hm, rfl, hrpc, habs, hf⟩
    simp [resolve_method_impl, hmem]
  · intro hf
    have hnot : m.name ∉ rpc_override_names methods (some f) := by
      rw [mem_rpc_override_names]
      rintro ⟨m', hm', hname, _, _, h3⟩
      have hmm : m' = m :=
        List.inj_on_of_nodup_map hnodup hm' hm hname
      rw [hmm, hf] at h3
      cases h3
    simp [resolve_method_impl, hnot]

/-- Witness for C7: a two-method service where the override implements `"b"`
and leaves `"a"` abstract. -/
theorem partial_override_dispatch_witness :
    resolve_method_impl [⟨"a", true, true⟩, ⟨"b", true, true⟩]
      (some fun n => n == "a") "a" = .remoteDispatch ∧
    resolve_method_impl [⟨"a", true, true⟩, ⟨"b", true, true⟩]
      (some fun n => n == "a") "b" = .localFromNonlocal :=
  ⟨(partial_override_dispatch _ _ ⟨"a", true, true⟩ (by decide)
      (by simp) rfl rfl).1 rfl,
   (partial_override_dispatch _ _ ⟨"b", true, true⟩ (by decide)
      (by simp) rfl rfl).2 rfl⟩

/-- C8. Void-return contract enforcement: when a method's return model is
absent (declared return type `None`), a non-null `value` field in the response
envelope makes dispatch raise `RpcResponseException` (the response contract
violation) instead of silently discarding the value, and
`deserialize_return_value` returns `None` exactly when the value is null. -/
theorem void_return_contract (v : Val) :
    (v.isNone = false →
      dispatch_deserialize Option.none v = .error .responseException) ∧
    (deserialize_return_value Option.none v = .ok Val.none ↔ v.isNone = true) := by
  constructor
  · intro hv
    simp [dispatch_deserialize, deserialize_return_value, hv]
  · cases hv : v.isNone <;> simp [deserialize_return_value, hv]

/-- Witness for C8: a void method receiving the non-null value `1`. -/
theorem void_return_contract_witness :
    dispatch_deserialize Option.none (Val.int 1) = .error .responseException :=
  (void_return_contract (Val.int 1)).1 rfl

/-- C10. Null return values bypass the return schema: for every return model,
a null `value` field in the HTTP 200 envelope makes dispatch return `None`
without invoking return-value deserialization, even though — as the second
conjunct shows for the non-void, non-optional return type `str` —
`deserialize_return_value` itself would have rejected the null value. -/
theorem null_value_bypasses_return_schema :
    (∀ return_model : Option Ty,
      dispatch_deserialize return_model Val.none = .ok Val.none) ∧
    deserialize_return_value (some Ty.primStr) Val.none = .error .validationError :=
  ⟨fun _ => rfl, rfl⟩

end SentryRpc
